/-
Verification of the gm-smart-shield knowledge-ingestion subsystem.

Shallow embedding of `apps/api/gm_shield/features/knowledge/service.py`
(ingestion pipeline, source-registry updates, semantic search) and
`apps/api/gm_shield/shared/worker/memory.py` (in-memory task queue).

Modelling conventions:
  * A `KnowledgeSource` SQLAlchemy row is a Lean structure; the SQLite
    table is a `List KnowledgeSource`; queries by id are `List.find?`.
  * Progress percentages are rationals (`Rat`), timestamps are `Nat`.
  * Python keyword arguments defaulting to `None` are `Option` fields;
    Python truthiness tests (`if status:`, `if error:` on strings) are
    modelled as `≠ ""` after the `Option` match, exactly as the source
    tests them.
  * External effects (file extraction, the text splitter, the embedding
    model, the Chroma collection) are inputs of the run, packaged in an
    environment structure: each effect's outcome for the run under
    consideration is a field, with `Except`/`Option` for calls that can
    raise.  Raising in Python is the `.error` branch; the pipeline's
    `except Exception` handler is the corresponding Lean branch.
  * Database commits issued by the pipeline itself are modelled as
    succeeding; `update_task_state`'s behaviour under a failing commit is
    modelled separately (it rolls back and swallows the exception).
  * The pipeline additionally emits a trace of the observable events
    (registry writes, vector-store reads/adds/deletes) so that ordering
    properties can be stated.
-/

import Mathlib

namespace GmShield

/-- One row of the `knowledge_sources` table
(`features/knowledge/models.py`, class `KnowledgeSource`). -/
structure KnowledgeSource where
  id : Nat
  file_path : String
  status : String
  progress : Rat
  current_step : Option String
  chunk_count : Nat
  started_at : Option Nat
  last_indexed_at : Option Nat
  error_message : Option String
  features : Option (List String)
deriving DecidableEq, Repr

/-- The keyword arguments of `_update_task_state`; `none` models the
Python default `None` (argument not supplied). -/
structure UpdateArgs where
  status : Option String := none
  progress : Option Rat := none
  step : Option String := none
  error : Option String := none
  started_at : Option Nat := none
deriving DecidableEq, Repr

/-- `if status: source.status = status` — skipped for `None` and for the
empty string (Python string truthiness). -/
def setStatus (s : KnowledgeSource) (v : Option String) : KnowledgeSource :=
  match v with
  | some x => if x ≠ "" then { s with status := x } else s
  | none => s

/-- `if progress is not None: source.progress = progress`. -/
def setProgress (s : KnowledgeSource) (v : Option Rat) : KnowledgeSource :=
  match v with
  | some x => { s with progress := x }
  | none => s

/-- `if step: source.current_step = step` (string truthiness). -/
def setStep (s : KnowledgeSource) (v : Option String) : KnowledgeSource :=
  match v with
  | some x => if x ≠ "" then { s with current_step := some x } else s
  | none => s

/-- `if error: source.error_message = error` (string truthiness: an empty
exception message is *not* written). -/
def setError (s : KnowledgeSource) (v : Option String) : KnowledgeSource :=
  match v with
  | some x => if x ≠ "" then { s with error_message := some x } else s
  | none => s

/-- `if started_at: source.started_at = started_at` (a datetime object is
always truthy). -/
def setStarted (s : KnowledgeSource) (v : Option Nat) : KnowledgeSource :=
  match v with
  | some x => { s with started_at := some x }
  | none => s

/-- The field writes performed by `_update_task_state` on the fetched row,
in source order: status, progress, current_step, error_message, started_at. -/
def applyUpdate (s : KnowledgeSource) (u : UpdateArgs) : KnowledgeSource :=
  setStarted
    (setError (setStep (setProgress (setStatus s u.status) u.progress) u.step)
      u.error)
    u.started_at

/-- `session.query(KnowledgeSource).filter(KnowledgeSource.id == source_id).first()`. -/
def findSource (db : List KnowledgeSource) (sid : Nat) : Option KnowledgeSource :=
  db.find? (fun s => s.id == sid)

/-- `_update_task_state` (service.py): fetch the row by id; if absent,
return with no effect; otherwise apply the requested field writes and
commit.  `commitOk` is the outcome of `session.commit()`: on failure the
`except` branch rolls the transaction back, leaving the table unchanged,
and the exception is swallowed (the function always returns normally,
which in this total embedding is returning the resulting table). -/
def update_task_state (db : List KnowledgeSource) (sid : Nat) (u : UpdateArgs)
    (commitOk : Bool) : List KnowledgeSource :=
  match findSource db sid with
  | none => db
  | some _ =>
    if commitOk then
      db.map (fun s => if s.id == sid then applyUpdate s u else s)
    else db

/-- The row reset performed by `refresh_knowledge_source` on an existing row. -/
def refreshRow (s : KnowledgeSource) : KnowledgeSource :=
  { s with status := "pending", progress := 0,
           current_step := some "Queued for refresh",
           error_message := none, started_at := none }

/-- `refresh_knowledge_source` (service.py): look the row up by id; raise
`ValueError` (`.error`) if absent, else reset it to `pending` and commit. -/
def refresh_knowledge_source (db : List KnowledgeSource) (sid : Nat) :
    Except String (List KnowledgeSource) :=
  match findSource db sid with
  | none => .error ("Source " ++ toString sid ++ " not found")
  | some _ =>
      .ok (db.map (fun s => if s.id == sid then refreshRow s else s))

/-- The reset performed by `create_or_update_knowledge_source` on an
existing row for the same file path. -/
def resetExistingRow (s : KnowledgeSource) : KnowledgeSource :=
  { s with status := "pending", progress := 0,
           current_step := some "Queued", error_message := none }

/-- A fresh row as built by `KnowledgeSource(file_path=..., status="pending",
current_step="Queued")` plus the model's column defaults. -/
def newSourceRow (newId : Nat) (fp : String) : KnowledgeSource :=
  { id := newId, file_path := fp, status := "pending", progress := 0,
    current_step := some "Queued", chunk_count := 0, started_at := none,
    last_indexed_at := none, error_message := none, features := none }

/-- `create_or_update_knowledge_source` (service.py).  `newId` models the
autoincrement id handed out when a fresh row is inserted.  Returns the
updated table and the id of the affected row. -/
def create_or_update_knowledge_source (db : List KnowledgeSource) (fp : String)
    (newId : Nat) : List KnowledgeSource × Nat :=
  match db.find? (fun s => s.file_path == fp) with
  | some ex =>
      (db.map (fun s => if s.file_path == fp then resetExistingRow s else s), ex.id)
  | none => (db ++ [newSourceRow newId fp], newId)

/-- One entry of the Chroma `knowledge_base` collection: an id together
with the stored document and its `{source, chunk_index}` metadata. -/
structure ChunkEntry where
  cid : String
  source : String
  chunk_index : Nat
  doc : String
deriving DecidableEq, Repr

/-- Outcomes of the external effects during one `_process_sync` run. -/
structure Env where
  /-- Outcome of `extract_text_from_file(file_path)`: the extracted text,
  or the message of the exception it raised. -/
  extract : Except String String
  /-- `RecursiveCharacterTextSplitter(...).split_text` (external library). -/
  split : String → List String
  /-- If `some (k, m)`, the `model.encode` call for the k-th batch
  (0-based) raises with message `m`; batches before it succeed. -/
  embedFail : Option (Nat × String)
  /-- Contents of the `knowledge_base` collection when the run reaches
  the store step. -/
  store : List ChunkEntry
  /-- If `some m`, `collection.add` raises with message `m` (and the
  collection is left unchanged); `none` means the add succeeds. -/
  addFail : Option String
  /-- `uuid.uuid4().hex[:8]`, the run-specific salt. -/
  salt : String
  /-- `datetime.now(timezone.utc)` for this run. -/
  tnow : Nat

/-- Observable events of a run: registry writes via `_update_task_state`,
the final completion write, and the vector-store calls. -/
inductive Ev where
  /-- A `_update_task_state(...)` call with the given keyword arguments. -/
  | upd (u : UpdateArgs)
  /-- The step-6 completion write (status `completed`, progress 100,
  `chunk_count` = the given number of chunks, error cleared). -/
  | fin (chunkCount : Nat)
  /-- `collection.get(where={"source": fp}, include=[])`. -/
  | vget (fp : String)
  /-- A successful `collection.add(..., ids=ids)`. -/
  | vadd (ids : List String)
  /-- `collection.delete(ids=ids)`. -/
  | vdel (ids : List String)
deriving DecidableEq, Repr

/-- `True` on `collection.delete` events. -/
def Ev.isDel : Ev → Bool
  | .vdel _ => true
  | _ => false

/-- `True` on vector-store events (`get`, `add`, `delete`). -/
def Ev.isStore : Ev → Bool
  | .vget _ => true
  | .vadd _ => true
  | .vdel _ => true
  | _ => false

/-- `not text.strip()`: true exactly when the text is empty or
whitespace-only (stripping both ends leaves nothing). -/
def isBlank (s : String) : Bool :=
  s.data.all Char.isWhitespace

/-- `Path(file_path).name`: the final path component. -/
def pathName (p : String) : String :=
  (p.splitOn "/").getLastD ""

/-- One generated chunk id: `f"{Path(file_path).name}_{base_id}_{i}"`. -/
def chunkId (fname salt : String) (i : Nat) : String :=
  fname ++ "_" ++ salt ++ "_" ++ Nat.repr i

/-- The ids generated for the new chunks, for `i in range(len(chunks))`. -/
def chunkIds (fname salt : String) (n : Nat) : List String :=
  (List.range n).map (chunkId fname salt)

/-- Number of iterations of `for i in range(0, total_chunks, batch_size)`
with `batch_size = 32`. -/
def numBatches (total : Nat) : Nat :=
  (total + 31) / 32

/-- The progress written after embedding the batch that starts at chunk
index `i`: `30.0 + 60.0 * (min(i + batch_size, total_chunks) / total_chunks)`. -/
def batchProgress (total i : Nat) : Rat :=
  30 + 60 * (((min (i + 32) total : Nat) : Rat) / ((total : Nat) : Rat))

/-- The step label written for the batch starting at chunk index `i`. -/
def batchStep (total i : Nat) : String :=
  "Generating embeddings (" ++ Nat.repr (min (i + 32) total) ++ "/" ++
    Nat.repr total ++ ")"

/-- The `_update_task_state` calls issued by the first `upto` iterations
of the embedding loop (batch `k` starts at chunk index `32 * k`). -/
def embedUpdates (total upto : Nat) : List UpdateArgs :=
  (List.range upto).map (fun k =>
    { progress := some (batchProgress total (32 * k)),
      step := some (batchStep total (32 * k)) })

/-- Whether the supplied embedding failure actually fires: it does only
when its batch ordinal is among the `nb` batches the loop runs. -/
def effEmbedFail (ef : Option (Nat × String)) (nb : Nat) : Option (Nat × String) :=
  match ef with
  | some km => if km.1 < nb then some km else none
  | none => none

/-- Fold a list of `_update_task_state` calls over the table. -/
def applyUpdates (db : List KnowledgeSource) (sid : Nat)
    (us : List UpdateArgs) : List KnowledgeSource :=
  us.foldl (fun d u => update_task_state d sid u true) db

/-- The step-6 completion write, performed directly on the re-fetched row
(not through `_update_task_state`): status `completed`, progress 100.0,
step `Done`, `last_indexed_at` now, `chunk_count` set, error cleared, and
`features` defaulted to `["indexation"]` when falsy (`None` or `[]`). -/
def completeRow (n tnow : Nat) (s : KnowledgeSource) : KnowledgeSource :=
  { s with status := "completed", progress := 100, current_step := some "Done",
           last_indexed_at := some tnow, chunk_count := n, error_message := none,
           features := match s.features with
             | none => some ["indexation"]
             | some [] => some ["indexation"]
             | some l => some l }

/-- The step-6 block: re-fetch the row (skipping the write if it has
disappeared, `if source_record:`), apply `completeRow`, commit. -/
def completeDb (db : List KnowledgeSource) (sid : Nat) (n tnow : Nat) :
    List KnowledgeSource :=
  match findSource db sid with
  | none => db
  | some _ => db.map (fun s => if s.id == sid then completeRow n tnow s else s)

/-- Result of one `_process_sync` run: the returned summary string, the
final registry table, the final collection contents, and the event trace. -/
structure RunResult where
  summary : String
  db : List KnowledgeSource
  vstore : List ChunkEntry
  trace : List Ev
deriving Repr

/-- The step-1 `_update_task_state` call: status `running`, progress 0,
step `Extracting text`, `started_at` now. -/
def startArgs (tnow : Nat) : UpdateArgs :=
  { status := some "running", progress := some 0,
    step := some "Extracting text", started_at := some tnow }

/-- The failure write `_update_task_state(session, source_id,
status="failed", error=m)`, used by both soft failures and the
top-level exception handler. -/
def failArgs (m : String) : UpdateArgs :=
  { status := some "failed", error := some m }

/-- The step-3 `_update_task_state` call: progress 20, step `Chunking text`. -/
def chunkArgs : UpdateArgs :=
  { progress := some 20, step := some "Chunking text" }

/-- The step-4 `_update_task_state` call made before the batch loop:
progress 30, step `Generating embeddings`. -/
def embedArgs : UpdateArgs :=
  { progress := some 30, step := some "Generating embeddings" }

/-- The step-5 `_update_task_state` call: progress 90, step
`Storing in Vector DB`. -/
def storeArgs : UpdateArgs :=
  { progress := some 90, step := some "Storing in Vector DB" }

/-- The `except Exception` handler at the bottom of `_process_sync`:
record the failure and return the `Failed: ...` summary. -/
def failRun (db : List KnowledgeSource) (sid : Nat) (vstore : List ChunkEntry)
    (tr : List Ev) (m : String) : RunResult :=
  ⟨"Failed: " ++ m, update_task_state db sid (failArgs m) true, vstore,
    tr ++ [Ev.upd (failArgs m)]⟩

/-- A soft failure (empty text / zero chunks): record `failed` with the
given message and return the message itself as the summary. -/
def softFail (db : List KnowledgeSource) (sid : Nat) (vstore : List ChunkEntry)
    (tr : List Ev) (m : String) : RunResult :=
  ⟨m, update_task_state db sid (failArgs m) true, vstore,
    tr ++ [Ev.upd (failArgs m)]⟩

/-- `_process_sync(source_id)` (service.py): the full ingestion pipeline
for one source, with the run's external-effect outcomes supplied by `env`
and the registry table by `db`.  Every Python `raise` reaching the
top-level `try` lands in `failRun`; the function itself always returns a
`RunResult` (it never raises). -/
def process_sync (env : Env) (db : List KnowledgeSource) (sid : Nat) : RunResult :=
  match findSource db sid with
  | none => ⟨"Source not found", db, env.store, []⟩
  | some rec0 =>
    let fp := rec0.file_path
    let db1 := update_task_state db sid (startArgs env.tnow) true
    let tr1 := [Ev.upd (startArgs env.tnow)]
    match env.extract with
    | .error m => failRun db1 sid env.store tr1 m
    | .ok text =>
      if isBlank text = true then
        softFail db1 sid env.store tr1 "No text content found"
      else
        let db2 := update_task_state db1 sid chunkArgs true
        let tr2 := tr1 ++ [Ev.upd chunkArgs]
        let chunks := env.split text
        if chunks = [] then
          softFail db2 sid env.store tr2 "No chunks generated"
        else
          let db3 := update_task_state db2 sid embedArgs true
          let tr3 := tr2 ++ [Ev.upd embedArgs]
          let total := chunks.length
          let nb := numBatches total
          match effEmbedFail env.embedFail nb with
          | some km =>
            let ups := embedUpdates total km.1
            failRun (applyUpdates db3 sid ups) sid env.store
              (tr3 ++ ups.map Ev.upd) km.2
          | none =>
            let ups := embedUpdates total nb
            let db4 := applyUpdates db3 sid ups
            let tr4 := tr3 ++ ups.map Ev.upd
            let db5 := update_task_state db4 sid storeArgs true
            let existingIds := (env.store.filter (fun c => c.source == fp)).map
              (fun c => c.cid)
            let tr6 := tr4 ++ [Ev.upd storeArgs, Ev.vget fp]
            match env.addFail with
            | some m => failRun db5 sid env.store tr6 m
            | none =>
              let ids := chunkIds (pathName fp) env.salt total
              let newEntries := (List.range total).map (fun i =>
                ⟨chunkId (pathName fp) env.salt i, fp, i, chunks.getD i ""⟩)
              let store1 := env.store ++ newEntries
              let tr7 := tr6 ++ [Ev.vadd ids]
              let store2 := if existingIds.isEmpty then store1
                else store1.filter (fun c => ¬ existingIds.contains c.cid)
              let tr8 := if existingIds.isEmpty then tr7
                else tr7 ++ [Ev.vdel existingIds]
              let dbF := completeDb db5 sid total env.tnow
              ⟨"Processed " ++ Nat.repr total ++ " chunks", dbF, store2,
                tr8 ++ [Ev.fin total]⟩

/-- The progress value written by an event, if any: an
`_update_task_state` call writes its `progress` keyword argument when
supplied; the completion write sets progress to 100.0; vector-store
events write none. -/
def Ev.progressOf : Ev → Option Rat
  | .upd u => u.progress
  | .fin _ => some 100
  | _ => none

/-- The sequence of progress values written to the source record during a
run, in order. -/
def progressTrace (tr : List Ev) : List Rat :=
  tr.filterMap Ev.progressOf

/-- `True` on the step-6 completion event. -/
def Ev.isFin : Ev → Bool
  | .fin _ => true
  | _ => false

/-- Whether the run reached the step-6 completion write. -/
def reachedCompletion (tr : List Ev) : Bool :=
  tr.any Ev.isFin

/-- The Source state invariant of the spec (§3): `completed` implies
progress 100.0, a non-negative chunk count and no recorded error;
`failed` implies a recorded error. -/
def sourceInvariant (s : KnowledgeSource) : Prop :=
  (s.status = "completed" →
    s.progress = 100 ∧ 0 ≤ s.chunk_count ∧ s.error_message = none) ∧
  (s.status = "failed" → s.error_message ≠ none)

/-- One formatted hit returned by `_query_knowledge_sync`: content,
`{source, chunk_index}` metadata, similarity distance. -/
structure QueryHit where
  content : String
  meta_source : String
  meta_chunk_index : Nat
  score : Rat
deriving DecidableEq, Repr

/-- The first row of the lists returned by `collection.query` (Chroma
returns one row per query embedding; the code reads row 0).  The three
lists are index-aligned by the store. -/
structure QueryOutput where
  documents : List String
  metadatas : List (String × Nat)
  distances : List Rat
deriving DecidableEq, Repr

/-- A `knowledge_base` collection as seen by the retrieval path: its
response to a similarity query (query embedding, `n_results`). -/
structure VColl where
  query : List Rat → Nat → QueryOutput

/-- Environment of one `_query_knowledge_sync` call: the embedding model
and the collection, where `none` models `client.get_collection` raising
`ValueError` because `knowledge_base` does not exist. -/
structure QueryEnv where
  encode : String → List Rat
  collection : Option VColl

/-- `_query_knowledge_sync(query, top_k)` (service.py): embed the query;
fetch the `knowledge_base` collection, returning `[]` when the
`except ValueError` branch is taken (collection absent); otherwise run
the similarity query and format row 0 of the three parallel lists.  The
function is total: the only exception path after embedding, the missing
collection, is caught. -/
def query_knowledge_sync (env : QueryEnv) (query : String) (top_k : Nat) :
    List QueryHit :=
  let qe := env.encode query
  match env.collection with
  | none => []
  | some coll =>
    let r := coll.query qe top_k
    (List.range r.documents.length).map (fun i =>
      ⟨r.documents.getD i "", (r.metadatas.getD i ("", 0)).1,
        (r.metadatas.getD i ("", 0)).2, r.distances.getD i 0⟩)

/-- One entry of `InMemoryTaskQueue.tasks` (`shared/worker/memory.py`). -/
structure TaskRec where
  status : String
  enqueued_at : Nat
  started_at : Option Nat
  completed_at : Option Nat
  result : Option String
  error : Option String
deriving DecidableEq, Repr

/-- The record created by `enqueue` before the worker runs:
`{"status": "pending", "enqueued_at": now}`. -/
def enqueueRec (t0 : Nat) : TaskRec :=
  ⟨"pending", t0, none, none, none, none⟩

/-- The `_worker` wrapper's first writes: status `running`, `started_at`. -/
def workerStart (r : TaskRec) (t1 : Nat) : TaskRec :=
  { r with status := "running", started_at := some t1 }

/-- The `_worker` wrapper's terminal writes: on normal return of the
wrapped work, status `completed` with the result; on any exception,
status `failed` with `str(e)` as the error — the exception is consumed
here and never re-raised.  The `finally` block records `completed_at`
in both cases. -/
def workerFinish (r : TaskRec) (work : Except String String) (t2 : Nat) : TaskRec :=
  match work with
  | .ok v =>
      { r with status := "completed", result := some v, completed_at := some t2 }
  | .error m =>
      { r with status := "failed", error := some m, completed_at := some t2 }

/-- The successive states of one task's record: after `enqueue`, after the
worker's start writes, and after its terminal writes.  `work` is the
outcome of awaiting the wrapped unit of work. -/
def workerStates (t0 t1 t2 : Nat) (work : Except String String) : List TaskRec :=
  [enqueueRec t0, workerStart (enqueueRec t0) t1,
    workerFinish (workerStart (enqueueRec t0) t1) work t2]

/-- The final state of one task's record. -/
def workerFinal (t0 t1 t2 : Nat) (work : Except String String) : TaskRec :=
  workerFinish (workerStart (enqueueRec t0) t1) work t2

/-- The allowed status transitions of a task record:
`pending → running → {completed | failed}`. -/
def taskStep (a b : String) : Prop :=
  (a = "pending" ∧ b = "running") ∨
    (a = "running" ∧ (b = "completed" ∨ b = "failed"))

/-- Numeric value of a decimal digit character (inverse of
`Nat.digitChar` on 0–9); used to prove `Nat.repr` injective. -/
def chVal (c : Char) : Nat :=
  c.toNat - 48

/-- One step of reading a decimal string back into a number. -/
def evalStep (a : Nat) (c : Char) : Nat :=
  10 * a + chVal c

/-- The status of the source record with the given id, if present. -/
def recStatus (db : List KnowledgeSource) (sid : Nat) : Option String :=
  (findSource db sid).map KnowledgeSource.status

/-- The `error_message` of the source record with the given id, if present. -/
def recError (db : List KnowledgeSource) (sid : Nat) : Option (Option String) :=
  (findSource db sid).map KnowledgeSource.error_message

/- ──────────────────────────── Theorems ──────────────────────────── -/

theorem setStatus_id (s : KnowledgeSource) (v : Option String) :
    (setStatus s v).id = s.id := by
  cases v with
  | none => rfl
  | some x => by_cases h : x = "" <;> simp [setStatus, h]

theorem setProgress_id (s : KnowledgeSource) (v : Option Rat) :
    (setProgress s v).id = s.id := by
  cases v <;> rfl

theorem setStep_id (s : KnowledgeSource) (v : Option String) :
    (setStep s v).id = s.id := by
  cases v with
  | none => rfl
  | some x => by_cases h : x = "" <;> simp [setStep, h]

theorem setError_id (s : KnowledgeSource) (v : Option String) :
    (setError s v).id = s.id := by
  cases v with
  | none => rfl
  | some x => by_cases h : x = "" <;> simp [setError, h]

theorem setStarted_id (s : KnowledgeSource) (v : Option Nat) :
    (setStarted s v).id = s.id := by
  cases v <;> rfl

theorem applyUpdate_id (s : KnowledgeSource) (u : UpdateArgs) :
    (applyUpdate s u).id = s.id := by
  simp [applyUpdate, setStarted_id, setError_id, setStep_id, setProgress_id,
    setStatus_id]

theorem completeRow_id (n t : Nat) (s : KnowledgeSource) :
    (completeRow n t s).id = s.id := rfl

theorem refreshRow_id (s : KnowledgeSource) : (refreshRow s).id = s.id := rfl

/-- Updating the row with a given id through an id-preserving function
commutes with looking that row up. -/
theorem findSource_map (db : List KnowledgeSource) (sid : Nat)
    (g : KnowledgeSource → KnowledgeSource) (hg : ∀ s, (g s).id = s.id) :
    findSource (db.map (fun s => if s.id == sid then g s else s)) sid =
      (findSource db sid).map g := by
  induction db with
  | nil => rfl
  | cons a l ih =>
    by_cases h : a.id = sid
    · have hb : (a.id == sid) = true := by simp [h]
      simp only [findSource, List.map_cons, hb, if_true]
      rw [List.find?_cons_of_pos, List.find?_cons_of_pos]
      · rfl
      · simp [h]
      · simp [hg, h]
    · have hb : (a.id == sid) = false := by simp [h]
      simp only [findSource, List.map_cons, hb, Bool.false_eq_true, if_false]
      rw [List.find?_cons_of_neg, List.find?_cons_of_neg]
      · exact ih
      · simp [h]
      · simp [h]

theorem findSource_update (db : List KnowledgeSource) (sid : Nat)
    (u : UpdateArgs) :
    findSource (update_task_state db sid u true) sid =
      (findSource db sid).map (fun r => applyUpdate r u) := by
  unfold update_task_state
  cases h : findSource db sid with
  | none => simp [h]
  | some r =>
    simp only [if_true]
    rw [findSource_map db sid _ (fun s => applyUpdate_id s u), h]

theorem findSource_applyUpdates (db : List KnowledgeSource) (sid : Nat)
    (us : List UpdateArgs) :
    findSource (applyUpdates db sid us) sid =
      (findSource db sid).map (fun r => us.foldl applyUpdate r) := by
  induction us generalizing db with
  | nil => simp [applyUpdates]
  | cons u us ih =>
    simp only [applyUpdates, List.foldl_cons] at *
    rw [ih, findSource_update]
    cases findSource db sid <;> rfl

theorem findSource_completeDb (db : List KnowledgeSource) (sid : Nat)
    (n t : Nat) :
    findSource (completeDb db sid n t) sid =
      (findSource db sid).map (completeRow n t) := by
  unfold completeDb
  cases h : findSource db sid with
  | none => simp [h]
  | some r =>
    rw [findSource_map db sid _ (fun s => completeRow_id n t s), h]

/-- C10: `_update_task_state` is total and atomic: it never raises (it is
a total function of this embedding, mirroring the `try/except` that
swallows every exception), a call aimed at a missing record returns with
no effect, and a failing commit rolls back, leaving the table unchanged. -/
theorem claim_C10 (db : List KnowledgeSource) (sid : Nat) (u : UpdateArgs)
    (commitOk : Bool) :
    (findSource db sid = none → update_task_state db sid u commitOk = db) ∧
    (commitOk = false → update_task_state db sid u commitOk = db) := by
  constructor
  · intro h; unfold update_task_state; rw [h]
  · intro h; subst h; unfold update_task_state
    cases findSource db sid <;> simp

/-- Witness for C10 at concrete inputs. -/
theorem claim_C10_witness :
    update_task_state [] 1 {} true = [] ∧
    update_task_state [⟨1, "/a.txt", "pending", 0, none, 0, none, none, none,
      none⟩] 1 { progress := some 50 } false =
      [⟨1, "/a.txt", "pending", 0, none, 0, none, none, none, none⟩] :=
  ⟨(claim_C10 [] 1 {} true).1 rfl,
    (claim_C10 [⟨1, "/a.txt", "pending", 0, none, 0, none, none, none, none⟩]
      1 { progress := some 50 } false).2 rfl⟩

/-- C9: `refresh_knowledge_source` on an existing record resets it to
`pending`, clears progress, error and start timestamp, and leaves
`chunk_count`, `last_indexed_at`, `file_path` and `features` untouched,
as well as every other record; on a missing id it raises `ValueError`
(the `.error` branch) and returns no table. -/
theorem claim_C9 (db : List KnowledgeSource) (sid : Nat) :
    (∀ rec, findSource db sid = some rec →
      ∃ db', refresh_knowledge_source db sid = .ok db' ∧
        findSource db' sid = some (refreshRow rec) ∧
        (refreshRow rec).status = "pending" ∧
        (refreshRow rec).progress = 0 ∧
        (refreshRow rec).error_message = none ∧
        (refreshRow rec).started_at = none ∧
        (refreshRow rec).chunk_count = rec.chunk_count ∧
        (refreshRow rec).last_indexed_at = rec.last_indexed_at ∧
        (refreshRow rec).file_path = rec.file_path ∧
        (refreshRow rec).features = rec.features ∧
        ∀ s ∈ db, s.id ≠ sid → s ∈ db') ∧
    (findSource db sid = none →
      refresh_knowledge_source db sid =
        .error ("Source " ++ toString sid ++ " not found")) := by
  constructor
  · intro rec h
    refine ⟨db.map (fun s => if s.id == sid then refreshRow s else s), ?_, ?_,
      rfl, rfl, rfl, rfl, rfl, rfl, rfl, rfl, ?_⟩
    · unfold refresh_knowledge_source; rw [h]
    · rw [findSource_map db sid _ (fun s => refreshRow_id s), h]; rfl
    · intro s hs hne
      have : (fun s => if s.id == sid then refreshRow s else s) s = s := by
        simp [hne]
      exact this ▸ List.mem_map_of_mem _ hs
  · intro h; unfold refresh_knowledge_source; rw [h]

/-- Witness for C9 at concrete inputs. -/
theorem claim_C9_witness :
    (refreshRow ⟨1, "/a.txt", "failed", 40, some "x", 7, some 3, some 4,
        some "boom", some ["indexation"]⟩).status = "pending" ∧
    refresh_knowledge_source ([] : List KnowledgeSource) 2 =
      .error ("Source " ++ toString 2 ++ " not found") := by
  obtain ⟨db', -, -, hstatus, -⟩ :=
    (claim_C9 [⟨1, "/a.txt", "failed", 40, some "x", 7, some 3, some 4,
      some "boom", some ["indexation"]⟩] 1).1
      ⟨1, "/a.txt", "failed", 40, some "x", 7, some 3, some 4, some "boom",
        some ["indexation"]⟩ (by decide)
  exact ⟨hstatus, (claim_C9 [] 2).2 rfl⟩

/-- C7: when the `knowledge_base` collection does not exist
(`get_collection` raises `ValueError`, modelled by `collection = none`),
`_query_knowledge_sync` returns the empty list for every query and
`top_k`, without raising. -/
theorem claim_C7 (env : QueryEnv) (q : String) (top_k : Nat)
    (h : env.collection = none) :
    query_knowledge_sync env q top_k = [] := by
  simp [query_knowledge_sync, h]

/-- Witness for C7 at a concrete environment. -/
theorem claim_C7_witness :
    query_knowledge_sync ⟨fun _ => [1, 0], none⟩ "grapple rules" 5 = [] :=
  claim_C7 ⟨fun _ => [1, 0], none⟩ "grapple rules" 5 rfl

/-- C8: the task-queue worker wrapper catches every exception of the
wrapped work, records its message as the task's `error` and marks the
task `failed` (the exception is consumed, never reaching the scheduler —
`workerFinish` is total), and the record's status only ever moves along
`pending → running → {completed | failed}`. -/
theorem claim_C8 (t0 t1 t2 : Nat) (work : Except String String) :
    List.Chain' taskStep ((workerStates t0 t1 t2 work).map TaskRec.status) ∧
    (∀ m, work = .error m →
      (workerFinal t0 t1 t2 work).status = "failed" ∧
      (workerFinal t0 t1 t2 work).error = some m) := by
  constructor
  · cases work <;>
      simp [workerStates, enqueueRec, workerStart, workerFinish, taskStep]
  · intro m hm; subst hm; exact ⟨rfl, rfl⟩

/-- Witness for C8 at a concrete failing task. -/
theorem claim_C8_witness :
    List.Chain' taskStep
      ((workerStates 0 1 2 (.error "embedding model crashed")).map
        TaskRec.status) ∧
    (workerFinal 0 1 2 (.error "embedding model crashed")).status = "failed" ∧
    (workerFinal 0 1 2 (.error "embedding model crashed")).error =
      some "embedding model crashed" :=
  ⟨(claim_C8 0 1 2 (.error "embedding model crashed")).1,
    (claim_C8 0 1 2 (.error "embedding model crashed")).2 _ rfl⟩

/-- C5 (amended): every operation the claim lists leaves the written
record satisfying the Source state invariant, with the exception
handler's write qualified by a non-empty message: pipeline start
(`startArgs`), soft failures and the exception handler (`failArgs m`,
`m ≠ ""`; the two soft-failure messages are non-empty literals),
completion (`completeRow`), refresh (`refreshRow`), and
create-or-update on an existing (`resetExistingRow`) or fresh
(`newSourceRow`) row. -/
theorem claim_C5_amended (s : KnowledgeSource) (m : String)
    (n t t0 newId : Nat) (fp : String) :
    sourceInvariant (applyUpdate s (startArgs t0)) ∧
    (m ≠ "" → sourceInvariant (applyUpdate s (failArgs m))) ∧
    sourceInvariant (applyUpdate s (failArgs "No text content found")) ∧
    sourceInvariant (applyUpdate s (failArgs "No chunks generated")) ∧
    sourceInvariant (completeRow n t s) ∧
    sourceInvariant (refreshRow s) ∧
    sourceInvariant (resetExistingRow s) ∧
    sourceInvariant (newSourceRow newId fp) := by
  refine ⟨?_, ?_, ?_, ?_, ?_, ?_, ?_, ?_⟩
  · simp [sourceInvariant, applyUpdate, startArgs, setStatus, setProgress,
      setStep, setError, setStarted]
  · intro hm
    simp [sourceInvariant, applyUpdate, failArgs, setStatus, setProgress,
      setStep, setError, setStarted, hm]
  · simp [sourceInvariant, applyUpdate, failArgs, setStatus, setProgress,
      setStep, setError, setStarted]
  · simp [sourceInvariant, applyUpdate, failArgs, setStatus, setProgress,
      setStep, setError, setStarted]
  · simp [sourceInvariant, completeRow]
  · simp [sourceInvariant, refreshRow]
  · simp [sourceInvariant, resetExistingRow]
  · simp [sourceInvariant, newSourceRow]

/-- Witness for C5 (amended) at a concrete record and message. -/
theorem claim_C5_witness :
    sourceInvariant (applyUpdate
      ⟨1, "/a.txt", "running", 30, none, 0, some 2, none, none, none⟩
      (failArgs "boom")) ∧
    sourceInvariant (completeRow 7 9
      ⟨1, "/a.txt", "running", 90, none, 0, some 2, none, none, none⟩) :=
  ⟨(claim_C5_amended ⟨1, "/a.txt", "running", 30, none, 0, some 2, none, none,
      none⟩ "boom" 7 9 2 5 "/a.txt").2.1 (by decide),
    (claim_C5_amended ⟨1, "/a.txt", "running", 90, none, 0, some 2, none,
      none, none⟩ "boom" 7 9 2 5 "/a.txt").2.2.2.2.1⟩

/-- Counterexample to C5 as stated: a run whose extraction raises with an
empty message ends with a reachable record that is `failed` with
`last_error = None`, violating the invariant. -/
theorem claim_C5_counterexample :
    (process_sync ⟨.error "", fun _ => [], none, [], none, "s", 0⟩
      [⟨1, "/a.txt", "pending", 0, none, 0, none, none, none, none⟩] 1).db =
      [⟨1, "/a.txt", "failed", 0, some "Extracting text", 0, some 0, none,
        none, none⟩] ∧
    ¬ sourceInvariant ⟨1, "/a.txt", "failed", 0, some "Extracting text", 0,
      some 0, none, none, none⟩ :=
  ⟨by decide, fun h => (h.2 rfl) rfl⟩

theorem chVal_digitChar : ∀ d, d < 10 → chVal (Nat.digitChar d) = d := by
  decide

/-- Reading back the decimal characters that `Nat.toDigitsCore` prepends
to `l` turns an accumulator of `0` into an accumulator of `n`, provided
the fuel exceeds `n` (as it does at every actual call site). -/
theorem toDigitsCore_eval :
    ∀ f n l, n < f →
      (Nat.toDigitsCore 10 f n l).foldl evalStep 0 = l.foldl evalStep n := by
  intro f
  induction f with
  | zero => intro n l h; exact absurd h (Nat.not_lt_zero n)
  | succ f ih =>
    intro n l h
    by_cases hdiv : n / 10 = 0
    · have hn10 : n < 10 := (Nat.div_eq_zero_iff (by norm_num)).1 hdiv
      simp only [Nat.toDigitsCore, hdiv, if_true, List.foldl_cons]
      rw [show evalStep 0 (Nat.digitChar (n % 10)) = n % 10 by
        simp [evalStep, chVal_digitChar _ (Nat.mod_lt n (by norm_num))]]
      rw [Nat.mod_eq_of_lt hn10]
    · have hpos : 0 < n := by
        rcases Nat.eq_zero_or_pos n with h0 | h0
        · exact absurd (by simp [h0]) hdiv
        · exact h0
      have hlt : n / 10 < f :=
        Nat.lt_of_lt_of_le (Nat.div_lt_self hpos (by norm_num))
          (Nat.lt_succ_iff.1 h)
      simp only [Nat.toDigitsCore, hdiv, if_false]
      rw [ih (n / 10) (Nat.digitChar (n % 10) :: l) hlt, List.foldl_cons]
      rw [show evalStep (n / 10) (Nat.digitChar (n % 10)) = n by
        simp only [evalStep, chVal_digitChar _ (Nat.mod_lt n (by norm_num))]
        exact Nat.div_add_mod n 10]

/-- The decimal representation used in the generated chunk ids is
injective, at the level of character lists. -/
theorem repr_data_injective (n m : Nat)
    (h : (Nat.repr n).data = (Nat.repr m).data) : n = m := by
  have hn : (Nat.repr n).data = Nat.toDigitsCore 10 (n + 1) n [] := rfl
  have hm : (Nat.repr m).data = Nat.toDigitsCore 10 (m + 1) m [] := rfl
  have := congrArg (List.foldl evalStep 0) (hn ▸ hm ▸ h)
  rwa [toDigitsCore_eval (n + 1) n [] (Nat.lt_succ_self n),
    toDigitsCore_eval (m + 1) m [] (Nat.lt_succ_self m)] at this

/-- Two ids of the same run (same filename, same salt) agree only on the
same sequence index. -/
theorem chunkId_inj_index (fname salt : String) (i j : Nat)
    (h : chunkId fname salt i = chunkId fname salt j) : i = j := by
  have hd := congrArg String.data h
  simp only [chunkId, String.data_append, List.append_assoc] at hd
  have h1 := List.append_cancel_left hd
  have h2 := List.append_cancel_left h1
  have h3 := List.append_cancel_left h2
  have h4 := List.append_cancel_left h3
  exact repr_data_injective i j h4

/-- Ids of two runs over the same file agree only if the salts agree,
provided the two salts have the same length (run salts are
`uuid4().hex[:8]`, always 8 characters). -/
theorem chunkId_salt_eq (fname s₁ s₂ : String) (i j : Nat)
    (hlen : s₁.length = s₂.length)
    (h : chunkId fname s₁ i = chunkId fname s₂ j) : s₁ = s₂ := by
  have hd := congrArg String.data h
  simp only [chunkId, String.data_append, List.append_assoc] at hd
  have h1 := List.append_cancel_left hd
  have h2 := List.append_cancel_left h1
  exact String.ext (List.append_inj h2 hlen).1

theorem run_eq_notfound (env : Env) (db : List KnowledgeSource) (sid : Nat)
    (hfind : findSource db sid = none) :
    process_sync env db sid = ⟨"Source not found", db, env.store, []⟩ := by
  unfold process_sync
  rw [hfind]

theorem run_eq_extract_error (env : Env) (db : List KnowledgeSource)
    (sid : Nat) (rec : KnowledgeSource) (m : String)
    (hfind : findSource db sid = some rec) (hext : env.extract = .error m) :
    process_sync env db sid =
      failRun (update_task_state db sid (startArgs env.tnow) true) sid
        env.store [Ev.upd (startArgs env.tnow)] m := by
  unfold process_sync
  rw [hfind, hext]

theorem run_eq_empty_text (env : Env) (db : List KnowledgeSource)
    (sid : Nat) (rec : KnowledgeSource) (text : String)
    (hfind : findSource db sid = some rec) (hext : env.extract = .ok text)
    (htrim : isBlank text = true) :
    process_sync env db sid =
      softFail (update_task_state db sid (startArgs env.tnow) true) sid
        env.store [Ev.upd (startArgs env.tnow)] "No text content found" := by
  unfold process_sync
  rw [hfind, hext]
  simp only [htrim, if_true, ite_true]

theorem run_eq_no_chunks (env : Env) (db : List KnowledgeSource)
    (sid : Nat) (rec : KnowledgeSource) (text : String)
    (hfind : findSource db sid = some rec) (hext : env.extract = .ok text)
    (htrim : ¬ isBlank text = true) (hchunks : env.split text = []) :
    process_sync env db sid =
      softFail
        (update_task_state (update_task_state db sid (startArgs env.tnow) true)
          sid chunkArgs true) sid env.store
        [Ev.upd (startArgs env.tnow), Ev.upd chunkArgs]
        "No chunks generated" := by
  unfold process_sync
  rw [hfind, hext]
  simp only [htrim, if_false, hchunks, if_true, ite_false, ite_true,
    Bool.false_eq_true, List.singleton_append, List.cons_append,
    List.nil_append]

theorem run_eq_embed_fail (env : Env) (db : List KnowledgeSource)
    (sid : Nat) (rec : KnowledgeSource) (text : String) (k : Nat) (m : String)
    (hfind : findSource db sid = some rec) (hext : env.extract = .ok text)
    (htrim : ¬ isBlank text = true) (hchunks : ¬ env.split text = [])
    (heff : effEmbedFail env.embedFail
      (numBatches (env.split text).length) = some (k, m)) :
    process_sync env db sid =
      failRun
        (applyUpdates
          (update_task_state
            (update_task_state (update_task_state db sid (startArgs env.tnow)
              true) sid chunkArgs true) sid embedArgs true) sid
          (embedUpdates (env.split text).length k)) sid env.store
        ([Ev.upd (startArgs env.tnow), Ev.upd chunkArgs, Ev.upd embedArgs] ++
          (embedUpdates (env.split text).length k).map Ev.upd) m := by
  unfold process_sync
  rw [hfind, hext]
  simp only [htrim, hchunks, heff, if_false, if_true, ite_false, ite_true,
    Bool.false_eq_true, List.singleton_append, List.cons_append,
    List.nil_append]

theorem run_eq_add_fail (env : Env) (db : List KnowledgeSource)
    (sid : Nat) (rec : KnowledgeSource) (text : String) (m : String)
    (hfind : findSource db sid = some rec) (hext : env.extract = .ok text)
    (htrim : ¬ isBlank text = true) (hchunks : ¬ env.split text = [])
    (heff : effEmbedFail env.embedFail
      (numBatches (env.split text).length) = none)
    (hadd : env.addFail = some m) :
    process_sync env db sid =
      failRun
        (update_task_state
          (applyUpdates
            (update_task_state
              (update_task_state (update_task_state db sid
                (startArgs env.tnow) true) sid chunkArgs true) sid embedArgs
              true) sid
            (embedUpdates (env.split text).length
              (numBatches (env.split text).length))) sid storeArgs true)
        sid env.store
        ([Ev.upd (startArgs env.tnow), Ev.upd chunkArgs, Ev.upd embedArgs] ++
          (embedUpdates (env.split text).length
            (numBatches (env.split text).length)).map Ev.upd ++
          [Ev.upd storeArgs, Ev.vget rec.file_path]) m := by
  unfold process_sync
  rw [hfind, hext]
  simp only [htrim, hchunks, heff, hadd, if_false, if_true, ite_false,
    ite_true, Bool.false_eq_true, List.singleton_append, List.cons_append,
    List.nil_append, List.append_assoc]

theorem run_trace_success (env : Env) (db : List KnowledgeSource)
    (sid : Nat) (rec : KnowledgeSource) (text : String)
    (hfind : findSource db sid = some rec) (hext : env.extract = .ok text)
    (htrim : ¬ isBlank text = true) (hchunks : ¬ env.split text = [])
    (heff : effEmbedFail env.embedFail
      (numBatches (env.split text).length) = none)
    (hadd : env.addFail = none) :
    (process_sync env db sid).trace =
      [Ev.upd (startArgs env.tnow), Ev.upd chunkArgs, Ev.upd embedArgs] ++
        (embedUpdates (env.split text).length
          (numBatches (env.split text).length)).map Ev.upd ++
        [Ev.upd storeArgs, Ev.vget rec.file_path] ++
        [Ev.vadd (chunkIds (pathName rec.file_path) env.salt
          (env.split text).length)] ++
        (if ((env.store.filter (fun c => c.source == rec.file_path)).map
            (fun c => c.cid)).isEmpty then []
          else [Ev.vdel ((env.store.filter (fun c => c.source ==
            rec.file_path)).map (fun c => c.cid))]) ++
        [Ev.fin (env.split text).length] := by
  unfold process_sync
  rw [hfind, hext]
  by_cases hemp : ((env.store.filter (fun c => c.source == rec.file_path)).map
      (fun c => c.cid)).isEmpty
  · simp only [htrim, hchunks, heff, hadd, hemp, if_false, if_true, ite_false,
      ite_true, Bool.false_eq_true, List.singleton_append, List.cons_append,
      List.nil_append, List.append_assoc, List.append_nil]
  · simp only [htrim, hchunks, heff, hadd, hemp, if_false, if_true, ite_false,
      ite_true, Bool.false_eq_true, List.singleton_append, List.cons_append,
      List.nil_append, List.append_assoc, List.append_nil]

theorem applyUpdate_failArgs_status (s : KnowledgeSource) (m : String) :
    (applyUpdate s (failArgs m)).status = "failed" := by
  by_cases hm : m = "" <;>
    simp [applyUpdate, failArgs, setStatus, setProgress, setStep, setError,
      setStarted, hm]

theorem applyUpdate_failArgs_error (s : KnowledgeSource) (m : String)
    (hm : m ≠ "") :
    (applyUpdate s (failArgs m)).error_message = some m := by
  simp [applyUpdate, failArgs, setStatus, setProgress, setStep, setError,
    setStarted, hm]

theorem applyUpdate_failArgs_error_empty (s : KnowledgeSource) :
    (applyUpdate s (failArgs "")).error_message = s.error_message := by
  simp [applyUpdate, failArgs, setStatus, setProgress, setStep, setError,
    setStarted]

theorem isSome_findSource_update (db : List KnowledgeSource) (sid : Nat)
    (u : UpdateArgs) :
    (findSource (update_task_state db sid u true) sid).isSome =
      (findSource db sid).isSome := by
  rw [findSource_update]
  cases findSource db sid <;> rfl

theorem isSome_findSource_applyUpdates (db : List KnowledgeSource) (sid : Nat)
    (us : List UpdateArgs) :
    (findSource (applyUpdates db sid us) sid).isSome =
      (findSource db sid).isSome := by
  rw [findSource_applyUpdates]
  cases findSource db sid <;> rfl

/-- After the failure write, the record (when present) reads `failed`. -/
theorem recStatus_fail_update (db : List KnowledgeSource) (sid : Nat)
    (m : String) (h : (findSource db sid).isSome = true) :
    recStatus (update_task_state db sid (failArgs m) true) sid =
      some "failed" := by
  obtain ⟨r, hr⟩ := Option.isSome_iff_exists.1 h
  unfold recStatus
  rw [findSource_update, hr]
  simp [applyUpdate_failArgs_status]

/-- After the failure write with a non-empty message, the record (when
present) carries that message. -/
theorem recError_fail_update (db : List KnowledgeSource) (sid : Nat)
    (m : String) (hm : m ≠ "") (h : (findSource db sid).isSome = true) :
    recError (update_task_state db sid (failArgs m) true) sid =
      some (some m) := by
  obtain ⟨r, hr⟩ := Option.isSome_iff_exists.1 h
  unfold recError
  rw [findSource_update, hr]
  simp [applyUpdate_failArgs_error r m hm]

/-- C1: in the store step the pipeline reads the existing ids, then adds
the new chunks, and deletes the old ids only after a successful add: on
every run in which `collection.add` raises, no delete event is issued,
the collection is left exactly as it was, the source record ends with
status `failed`, and the run returns the `Failed:` summary. -/
theorem claim_C1 (env : Env) (db : List KnowledgeSource) (sid : Nat)
    (rec : KnowledgeSource) (text m : String)
    (hfind : findSource db sid = some rec) (hext : env.extract = .ok text)
    (htrim : ¬ isBlank text = true) (hchunks : ¬ env.split text = [])
    (heff : effEmbedFail env.embedFail
      (numBatches (env.split text).length) = none)
    (hadd : env.addFail = some m) :
    (process_sync env db sid).trace.all (fun e => ! e.isDel) = true ∧
    (process_sync env db sid).vstore = env.store ∧
    recStatus (process_sync env db sid).db sid = some "failed" ∧
    (process_sync env db sid).summary = "Failed: " ++ m := by
  rw [run_eq_add_fail env db sid rec text m hfind hext htrim hchunks heff hadd]
  refine ⟨?_, rfl, ?_, rfl⟩
  · simp [failRun, Ev.isDel, List.all_append, List.all_map, Function.comp]
  · simp only [failRun]
    apply recStatus_fail_update
    rw [isSome_findSource_update, isSome_findSource_applyUpdates,
      isSome_findSource_update, isSome_findSource_update,
      isSome_findSource_update, hfind]
    rfl

/-- Witness for C1: a concrete run whose vector-store add raises. -/
theorem claim_C1_witness :
    recStatus (process_sync ⟨.ok "hello", fun _ => ["a", "b"], none,
      [⟨"a.txt_old_0", "/a.txt", 0, "x"⟩], some "boom", "s", 3⟩
      [⟨1, "/a.txt", "pending", 0, none, 0, none, none, none, none⟩] 1).db 1 =
      some "failed" ∧
    (process_sync ⟨.ok "hello", fun _ => ["a", "b"], none,
      [⟨"a.txt_old_0", "/a.txt", 0, "x"⟩], some "boom", "s", 3⟩
      [⟨1, "/a.txt", "pending", 0, none, 0, none, none, none, none⟩] 1).vstore
      = [⟨"a.txt_old_0", "/a.txt", 0, "x"⟩] := by
  have h := claim_C1 ⟨.ok "hello", fun _ => ["a", "b"], none,
      [⟨"a.txt_old_0", "/a.txt", 0, "x"⟩], some "boom", "s", 3⟩
      [⟨1, "/a.txt", "pending", 0, none, 0, none, none, none, none⟩] 1
      ⟨1, "/a.txt", "pending", 0, none, 0, none, none, none, none⟩ "hello"
      "boom" (by decide) rfl (by decide) (by decide) rfl rfl
  exact ⟨h.2.2.1, h.2.1⟩

/-- C2 (amended): the pipeline is a total function of this embedding (it
returns a summary in every branch); an exception in extract, embed or
store is caught at the top level, recorded as status `failed`, and the
run returns `Failed: <message>`; the exception's message becomes
`last_error` *provided it is non-empty* — `_update_task_state`'s
`if error:` drops an empty message (see the counterexample). -/
theorem claim_C2_amended (env : Env) (db : List KnowledgeSource) (sid : Nat)
    (rec : KnowledgeSource) (hfind : findSource db sid = some rec) :
    (∀ m, env.extract = .error m → m ≠ "" →
      (process_sync env db sid).summary = "Failed: " ++ m ∧
      recStatus (process_sync env db sid).db sid = some "failed" ∧
      recError (process_sync env db sid).db sid = some (some m)) ∧
    (∀ text k m, env.extract = .ok text → ¬ isBlank text = true →
      ¬ env.split text = [] →
      effEmbedFail env.embedFail (numBatches (env.split text).length) =
        some (k, m) → m ≠ "" →
      (process_sync env db sid).summary = "Failed: " ++ m ∧
      recStatus (process_sync env db sid).db sid = some "failed" ∧
      recError (process_sync env db sid).db sid = some (some m)) ∧
    (∀ text m, env.extract = .ok text → ¬ isBlank text = true →
      ¬ env.split text = [] →
      effEmbedFail env.embedFail (numBatches (env.split text).length) = none →
      env.addFail = some m → m ≠ "" →
      (process_sync env db sid).summary = "Failed: " ++ m ∧
      recStatus (process_sync env db sid).db sid = some "failed" ∧
      recError (process_sync env db sid).db sid = some (some m)) := by
  refine ⟨?_, ?_, ?_⟩
  · intro m hext hm
    rw [run_eq_extract_error env db sid rec m hfind hext]
    refine ⟨rfl, ?_, ?_⟩
    · simp only [failRun]
      apply recStatus_fail_update
      rw [isSome_findSource_update, hfind]; rfl
    · simp only [failRun]
      apply recError_fail_update _ _ _ hm
      rw [isSome_findSource_update, hfind]; rfl
  · intro text k m hext htrim hchunks heff hm
    rw [run_eq_embed_fail env db sid rec text k m hfind hext htrim hchunks
      heff]
    refine ⟨rfl, ?_, ?_⟩
    · simp only [failRun]
      apply recStatus_fail_update
      rw [isSome_findSource_applyUpdates, isSome_findSource_update,
        isSome_findSource_update, isSome_findSource_update, hfind]; rfl
    · simp only [failRun]
      apply recError_fail_update _ _ _ hm
      rw [isSome_findSource_applyUpdates, isSome_findSource_update,
        isSome_findSource_update, isSome_findSource_update, hfind]; rfl
  · intro text m hext htrim hchunks heff hadd hm
    rw [run_eq_add_fail env db sid rec text m hfind hext htrim hchunks heff
      hadd]
    refine ⟨rfl, ?_, ?_⟩
    · simp only [failRun]
      apply recStatus_fail_update
      rw [isSome_findSource_update, isSome_findSource_applyUpdates,
        isSome_findSource_update, isSome_findSource_update,
        isSome_findSource_update, hfind]; rfl
    · simp only [failRun]
      apply recError_fail_update _ _ _ hm
      rw [isSome_findSource_update, isSome_findSource_applyUpdates,
        isSome_findSource_update, isSome_findSource_update,
        isSome_findSource_update, hfind]; rfl

/-- Witness for C2 (amended): a concrete run whose extraction raises with
a non-empty message. -/
theorem claim_C2_witness :
    (process_sync ⟨.error "file vanished", fun _ => [], none, [], none, "s",
      0⟩ [⟨1, "/a.txt", "pending", 0, none, 0, none, none, none, none⟩]
      1).summary = "Failed: " ++ "file vanished" ∧
    recError (process_sync ⟨.error "file vanished", fun _ => [], none, [],
      none, "s", 0⟩
      [⟨1, "/a.txt", "pending", 0, none, 0, none, none, none, none⟩] 1).db 1 =
      some (some "file vanished") := by
  have h := (claim_C2_amended ⟨.error "file vanished", fun _ => [], none, [],
      none, "s", 0⟩
      [⟨1, "/a.txt", "pending", 0, none, 0, none, none, none, none⟩] 1
      ⟨1, "/a.txt", "pending", 0, none, 0, none, none, none, none⟩
      (by decide)).1 "file vanished" rfl (by decide)
  exact ⟨h.1, h.2.2⟩

/-- Counterexample to C2 as stated: an exception whose message is the
empty string (e.g. `str(ValueError())`) is caught and the record is
marked `failed`, but `_update_task_state`'s `if error:` skips the write,
so `last_error` stays `None` instead of becoming the exception's
message. -/
theorem claim_C2_counterexample :
    (process_sync ⟨.error "", fun _ => [], none, [], none, "s", 0⟩
      [⟨1, "/a.txt", "pending", 0, none, 0, none, none, none, none⟩]
      1).summary = "Failed: " ∧
    recStatus (process_sync ⟨.error "", fun _ => [], none, [], none, "s", 0⟩
      [⟨1, "/a.txt", "pending", 0, none, 0, none, none, none, none⟩] 1).db 1 =
      some "failed" ∧
    recError (process_sync ⟨.error "", fun _ => [], none, [], none, "s", 0⟩
      [⟨1, "/a.txt", "pending", 0, none, 0, none, none, none, none⟩] 1).db 1 =
      some none ∧
    (some (none : Option String) ≠ some (some "")) := by
  refine ⟨by decide, by decide, by decide, by decide⟩

/-- C3 (amended): a run whose extraction succeeds with empty or
whitespace-only text is a soft failure: status `failed` with error
message `"No text content found"` (capital N — the spec quotes it
lowercased), the summary is that same message, no exception is raised
(the branch returns, it does not enter the handler), and the vector
store is neither read nor written. -/
theorem claim_C3_amended (env : Env) (db : List KnowledgeSource) (sid : Nat)
    (rec : KnowledgeSource) (text : String)
    (hfind : findSource db sid = some rec) (hext : env.extract = .ok text)
    (htrim : isBlank text = true) :
    (process_sync env db sid).summary = "No text content found" ∧
    (process_sync env db sid).vstore = env.store ∧
    (process_sync env db sid).trace.all (fun e => ! e.isStore) = true ∧
    recStatus (process_sync env db sid).db sid = some "failed" ∧
    recError (process_sync env db sid).db sid =
      some (some "No text content found") := by
  rw [run_eq_empty_text env db sid rec text hfind hext htrim]
  refine ⟨rfl, rfl, by simp [softFail, Ev.isStore], ?_, ?_⟩
  · simp only [softFail]
    apply recStatus_fail_update
    rw [isSome_findSource_update, hfind]; rfl
  · simp only [softFail]
    apply recError_fail_update _ _ _ (by decide)
    rw [isSome_findSource_update, hfind]; rfl

/-- Witness for C3 (amended): a whitespace-only extraction. -/
theorem claim_C3_witness :
    (process_sync ⟨.ok "  ", fun _ => [], none,
      [⟨"a.txt_old_0", "/a.txt", 0, "x"⟩], none, "s", 0⟩
      [⟨1, "/a.txt", "pending", 0, none, 0, none, none, none, none⟩]
      1).summary = "No text content found" ∧
    (process_sync ⟨.ok "  ", fun _ => [], none,
      [⟨"a.txt_old_0", "/a.txt", 0, "x"⟩], none, "s", 0⟩
      [⟨1, "/a.txt", "pending", 0, none, 0, none, none, none, none⟩]
      1).vstore = [⟨"a.txt_old_0", "/a.txt", 0, "x"⟩] := by
  have h := claim_C3_amended ⟨.ok "  ", fun _ => [], none,
      [⟨"a.txt_old_0", "/a.txt", 0, "x"⟩], none, "s", 0⟩
      [⟨1, "/a.txt", "pending", 0, none, 0, none, none, none, none⟩] 1
      ⟨1, "/a.txt", "pending", 0, none, 0, none, none, none, none⟩ "  "
      (by decide) rfl (by decide)
  exact ⟨h.1, h.2.1⟩

/-- Counterexample to C3 as stated: the recorded error message is
`"No text content found"`, not the lowercase `"no text content found"`
the claim quotes. -/
theorem claim_C3_counterexample :
    recError (process_sync ⟨.ok "  ", fun _ => [], none, [], none, "s", 0⟩
      [⟨1, "/a.txt", "pending", 0, none, 0, none, none, none, none⟩] 1).db 1 =
      some (some "No text content found") ∧
    (some (some "No text content found") ≠
      some (some "no text content found")) := by
  refine ⟨by decide, by decide⟩

/-- C6: the chunk ids generated by one run (filename + run salt +
sequence index) are pairwise distinct, and two runs over the same file
whose salts differ (salts are `uuid4().hex[:8]`, hence of equal length)
generate disjoint id sets. -/
theorem claim_C6 (fname s₁ s₂ : String) (n₁ n₂ : Nat) :
    (chunkIds fname s₁ n₁).Nodup ∧
    (s₁.length = s₂.length → s₁ ≠ s₂ →
      ∀ x ∈ chunkIds fname s₁ n₁, x ∉ chunkIds fname s₂ n₂) := by
  constructor
  · exact List.Nodup.map (fun i j h => chunkId_inj_index fname s₁ i j h)
      (List.nodup_range n₁)
  · intro hlen hne x hx hx₂
    obtain ⟨i, -, rfl⟩ := List.mem_map.1 hx
    obtain ⟨j, -, hj⟩ := List.mem_map.1 hx₂
    exact hne (chunkId_salt_eq fname s₁ s₂ i j hlen hj.symm)

/-- Witness for C6 at concrete filenames, salts and run sizes. -/
theorem claim_C6_witness :
    (chunkIds "notes.txt" "0a1b2c3d" 3).Nodup ∧
    "notes.txt_0a1b2c3d_0" ∉ chunkIds "notes.txt" "ffffffff" 3 :=
  ⟨(claim_C6 "notes.txt" "0a1b2c3d" "ffffffff" 3 3).1,
    (claim_C6 "notes.txt" "0a1b2c3d" "ffffffff" 3 3).2 (by decide) (by decide)
      _ (by decide)⟩

theorem filterMap_progress_embed (total k : Nat) :
    List.filterMap Ev.progressOf ((embedUpdates total k).map Ev.upd) =
      (List.range k).map (fun j => batchProgress total (32 * j)) := by
  unfold embedUpdates
  generalize List.range k = l
  induction l with
  | nil => rfl
  | cons a l ih =>
    simp only [List.map_cons, List.filterMap_cons, Ev.progressOf]
    rw [ih]

theorem batchProgress_ge (total i : Nat) : (30 : Rat) ≤ batchProgress total i := by
  unfold batchProgress
  have h : (0:Rat) ≤ ((min (i+32) total : Nat) : Rat) / ((total : Nat) : Rat) :=
    div_nonneg (Nat.cast_nonneg _) (Nat.cast_nonneg _)
  linarith

theorem batchProgress_le (total i : Nat) (h : 0 < total) :
    batchProgress total i ≤ 90 := by
  unfold batchProgress
  have htp : (0:Rat) < ((total : Nat):Rat) := by exact_mod_cast h
  have h1 : ((min (i+32) total : Nat):Rat) / ((total : Nat):Rat) ≤ 1 := by
    rw [div_le_one htp]
    exact_mod_cast Nat.min_le_right (i+32) total
  linarith

theorem batchProgress_mono (total : Nat) {i j : Nat} (hij : i ≤ j) :
    batchProgress total i ≤ batchProgress total j := by
  unfold batchProgress
  rcases Nat.eq_zero_or_pos total with h0 | hpos
  · subst h0; simp
  · have htp : (0:Rat) < ((total : Nat):Rat) := by exact_mod_cast hpos
    have hmin : ((min (i + 32) total : Nat):Rat) ≤
        ((min (j + 32) total : Nat):Rat) := by
      exact_mod_cast min_le_min (Nat.add_le_add_right hij 32) (le_refl total)
    have hd := (div_le_div_iff_of_pos_right htp).2 hmin
    linarith

theorem sorted_embedMap (total k : Nat) :
    List.Sorted (· ≤ ·)
      ((List.range k).map (fun j => batchProgress total (32 * j))) := by
  rw [List.Sorted, List.pairwise_map]
  exact (List.pairwise_lt_range k).imp
    (fun h => batchProgress_mono total (Nat.mul_le_mul_left 32 h.le))

theorem mem_embedMap_ge (total k : Nat) (x : Rat)
    (hx : x ∈ (List.range k).map (fun j => batchProgress total (32 * j))) :
    30 ≤ x := by
  obtain ⟨j, -, rfl⟩ := List.mem_map.1 hx
  exact batchProgress_ge total (32 * j)

theorem mem_embedMap_le (total k : Nat) (htot : 0 < total) (x : Rat)
    (hx : x ∈ (List.range k).map (fun j => batchProgress total (32 * j))) :
    x ≤ 90 := by
  obtain ⟨j, -, rfl⟩ := List.mem_map.1 hx
  exact batchProgress_le total (32 * j) htot

theorem sorted_failchain (total k : Nat) :
    List.Sorted (· ≤ ·)
      (0 :: 20 :: 30 ::
        (List.range k).map (fun j => batchProgress total (32 * j))) := by
  refine List.sorted_cons.2 ⟨?_, List.sorted_cons.2 ⟨?_,
    List.sorted_cons.2 ⟨?_, sorted_embedMap total k⟩⟩⟩
  · intro b hb
    simp only [List.mem_cons] at hb
    rcases hb with rfl | rfl | hb
    · norm_num
    · norm_num
    · exact le_trans (by norm_num) (mem_embedMap_ge total k b hb)
  · intro b hb
    simp only [List.mem_cons] at hb
    rcases hb with rfl | hb
    · norm_num
    · exact le_trans (by norm_num) (mem_embedMap_ge total k b hb)
  · intro b hb
    exact mem_embedMap_ge total k b hb

theorem sorted_fullchain (total : Nat) (htot : 0 < total) (tail : List Rat)
    (htail : List.Sorted (· ≤ ·) tail) (hge : ∀ y ∈ tail, (90:Rat) ≤ y) :
    List.Sorted (· ≤ ·)
      (0 :: 20 :: 30 ::
        ((List.range (numBatches total)).map
          (fun j => batchProgress total (32 * j)) ++ tail)) := by
  have hmem : ∀ b ∈ (List.range (numBatches total)).map
      (fun j => batchProgress total (32 * j)) ++ tail, (30:Rat) ≤ b := by
    intro b hb
    rcases List.mem_append.1 hb with hb | hb
    · exact mem_embedMap_ge total _ b hb
    · exact le_trans (by norm_num) (hge b hb)
  have hsub : List.Sorted (· ≤ ·)
      ((List.range (numBatches total)).map
        (fun j => batchProgress total (32 * j)) ++ tail) := by
    rw [List.Sorted, List.pairwise_append]
    refine ⟨sorted_embedMap total (numBatches total), htail, ?_⟩
    intro x hx y hy
    exact le_trans (mem_embedMap_le total (numBatches total) htot x hx)
      (hge y hy)
  refine List.sorted_cons.2 ⟨?_, List.sorted_cons.2 ⟨?_,
    List.sorted_cons.2 ⟨fun b hb => hmem b hb, hsub⟩⟩⟩
  · intro b hb
    simp only [List.mem_cons] at hb
    rcases hb with rfl | rfl | hb
    · norm_num
    · norm_num
    · exact le_trans (by norm_num) (hmem b hb)
  · intro b hb
    simp only [List.mem_cons] at hb
    rcases hb with rfl | hb
    · norm_num
    · exact le_trans (by norm_num) (hmem b hb)

/-- C4: within one run the progress values written to the source record
form a non-decreasing sequence (0, 20, 30, the per-batch values
`30 + 60 * min(i+32, n)/n`, 90, 100), and a run that reaches the step-6
completion write ends with progress exactly 100.0. -/
theorem claim_C4 (env : Env) (db : List KnowledgeSource) (sid : Nat) :
    List.Sorted (· ≤ ·) (progressTrace (process_sync env db sid).trace) ∧
    (reachedCompletion (process_sync env db sid).trace = true →
      (progressTrace (process_sync env db sid).trace).getLast? = some 100) := by
  cases hf : findSource db sid with
  | none =>
    rw [run_eq_notfound env db sid hf]
    exact ⟨by simp [progressTrace], by simp [reachedCompletion]⟩
  | some rec =>
    cases hext : env.extract with
    | error m =>
      rw [run_eq_extract_error env db sid rec m hf hext]
      constructor
      · simp [failRun, progressTrace, Ev.progressOf, startArgs, failArgs,
          List.sorted_cons]
      · intro hrc
        exfalso
        simp [failRun, reachedCompletion, Ev.isFin] at hrc
    | ok text =>
      by_cases htrim : isBlank text = true
      · rw [run_eq_empty_text env db sid rec text hf hext htrim]
        constructor
        · simp [softFail, progressTrace, Ev.progressOf, startArgs, failArgs,
            List.sorted_cons]
        · intro hrc
          exfalso
          simp [softFail, reachedCompletion, Ev.isFin] at hrc
      · by_cases hchunks : env.split text = []
        · rw [run_eq_no_chunks env db sid rec text hf hext htrim hchunks]
          constructor
          · simp [softFail, progressTrace, Ev.progressOf, startArgs,
              chunkArgs, failArgs, List.sorted_cons]
          · intro hrc
            exfalso
            simp [softFail, reachedCompletion, Ev.isFin] at hrc
        · cases heff : effEmbedFail env.embedFail
            (numBatches (env.split text).length) with
          | some km =>
            obtain ⟨k, m⟩ := km
            rw [run_eq_embed_fail env db sid rec text k m hf hext htrim
              hchunks heff]
            constructor
            · simp only [failRun, progressTrace, List.filterMap_append,
                List.filterMap_cons, List.filterMap_nil, Ev.progressOf,
                startArgs, chunkArgs, embedArgs, failArgs,
                filterMap_progress_embed, List.append_nil, List.cons_append,
                List.nil_append]
              exact sorted_failchain (env.split text).length k
            · intro hrc
              exfalso
              simp [failRun, reachedCompletion, Ev.isFin, List.any_append,
                List.any_map, Function.comp] at hrc
          | none =>
            cases hadd : env.addFail with
            | some m =>
              rw [run_eq_add_fail env db sid rec text m hf hext htrim hchunks
                heff hadd]
              constructor
              · simp only [failRun, progressTrace, List.filterMap_append,
                  List.filterMap_cons, List.filterMap_nil, Ev.progressOf,
                  startArgs, chunkArgs, embedArgs, storeArgs, failArgs,
                  filterMap_progress_embed, List.append_nil, List.cons_append,
                  List.nil_append, List.append_assoc]
                exact sorted_fullchain (env.split text).length
                  (List.length_pos.2 hchunks) [90]
                  (List.sorted_singleton 90) (by norm_num)
              · intro hrc
                exfalso
                simp [failRun, reachedCompletion, Ev.isFin, List.any_append,
                  List.any_map, Function.comp] at hrc
            | none =>
              have htr := run_trace_success env db sid rec text hf hext htrim
                hchunks heff hadd
              rw [htr]
              have htot : 0 < (env.split text).length :=
                List.length_pos.2 hchunks
              have hs90 : List.Sorted (· ≤ ·) ([90, 100] : List Rat) := by
                norm_num [List.sorted_cons]
              have hge90 : ∀ y ∈ ([90, 100] : List Rat), (90:Rat) ≤ y := by
                intro y hy
                simp only [List.mem_cons, List.not_mem_nil, or_false] at hy
                rcases hy with rfl | rfl <;> norm_num
              by_cases hemp : ((env.store.filter
                  (fun c => c.source == rec.file_path)).map
                  (fun c => c.cid)).isEmpty
              · constructor
                · simp only [hemp, if_true, ite_true, progressTrace,
                    List.filterMap_append, List.filterMap_cons,
                    List.filterMap_nil, Ev.progressOf, startArgs, chunkArgs,
                    embedArgs, storeArgs, filterMap_progress_embed,
                    List.append_nil, List.cons_append, List.nil_append,
                    List.append_assoc]
                  exact sorted_fullchain (env.split text).length htot
                    [90, 100] hs90 hge90
                · intro hrc
                  simp only [hemp, if_true, ite_true, progressTrace,
                    List.filterMap_append, List.filterMap_cons,
                    List.filterMap_nil, Ev.progressOf, startArgs, chunkArgs,
                    embedArgs, storeArgs, filterMap_progress_embed,
                    List.append_nil, List.cons_append, List.nil_append,
                    List.append_assoc]
                  rw [show (0 :: 20 :: 30 ::
                      ((List.range (numBatches (env.split text).length)).map
                        (fun j => batchProgress (env.split text).length
                          (32 * j)) ++ ([90, 100] : List Rat))) =
                      (0 :: 20 :: 30 ::
                      ((List.range (numBatches (env.split text).length)).map
                        (fun j => batchProgress (env.split text).length
                          (32 * j)) ++ [90])) ++ [100] by simp]
                  exact List.getLast?_concat _
              · constructor
                · simp only [hemp, if_false, ite_false, Bool.false_eq_true,
                    progressTrace, List.filterMap_append, List.filterMap_cons,
                    List.filterMap_nil, Ev.progressOf, startArgs, chunkArgs,
                    embedArgs, storeArgs, filterMap_progress_embed,
                    List.append_nil, List.cons_append, List.nil_append,
                    List.append_assoc]
                  exact sorted_fullchain (env.split text).length htot
                    [90, 100] hs90 hge90
                · intro hrc
                  simp only [hemp, if_false, ite_false, Bool.false_eq_true,
                    progressTrace, List.filterMap_append, List.filterMap_cons,
                    List.filterMap_nil, Ev.progressOf, startArgs, chunkArgs,
                    embedArgs, storeArgs, filterMap_progress_embed,
                    List.append_nil, List.cons_append, List.nil_append,
                    List.append_assoc]
                  rw [show (0 :: 20 :: 30 ::
                      ((List.range (numBatches (env.split text).length)).map
                        (fun j => batchProgress (env.split text).length
                          (32 * j)) ++ ([90, 100] : List Rat))) =
                      (0 :: 20 :: 30 ::
                      ((List.range (numBatches (env.split text).length)).map
                        (fun j => batchProgress (env.split text).length
                          (32 * j)) ++ [90])) ++ [100] by simp]
                  exact List.getLast?_concat _

/-- Witness for C4: a concrete successful two-chunk run whose final
progress write is 100. -/
theorem claim_C4_witness :
    List.Sorted (· ≤ ·) (progressTrace (process_sync ⟨.ok "hello",
      fun _ => ["a", "b"], none, [], none, "s", 3⟩
      [⟨1, "/a.txt", "pending", 0, none, 0, none, none, none, none⟩]
      1).trace) ∧
    (progressTrace (process_sync ⟨.ok "hello", fun _ => ["a", "b"], none, [],
      none, "s", 3⟩
      [⟨1, "/a.txt", "pending", 0, none, 0, none, none, none, none⟩]
      1).trace).getLast? = some 100 :=
  ⟨(claim_C4 ⟨.ok "hello", fun _ => ["a", "b"], none, [], none, "s", 3⟩
      [⟨1, "/a.txt", "pending", 0, none, 0, none, none, none, none⟩] 1).1,
    (claim_C4 ⟨.ok "hello", fun _ => ["a", "b"], none, [], none, "s", 3⟩
      [⟨1, "/a.txt", "pending", 0, none, 0, none, none, none, none⟩] 1).2
      (by decide)⟩
